import Mathlib

/-!
# A verification development for `listen-better.py`

This file gives a shallow embedding, in Lean 4, of the logic of the
`listen-better.py` script: the JSON handling of the recommendation oracle
output (`get_gemini_recommendations_google_ai`), the catalog enrichment step
(`verify_and_filter_songs_on_spotify`), the recommendation-collection loop of
`__main__`, the playlist write batching (`update_playlist_items`), and the
skeleton of the main program.  External collaborators (the streaming catalog
and the generative-model oracle) are modelled as function parameters; all
string and list manipulation performed by the script itself is translated
directly from the source.

Python string operations are embedded at the `List Char` level
(`pyLower`, `pyStrip`, `pyInt`, ...) so that every definition is executable
by the kernel; Python truthiness of strings/lists/`None` is modelled
explicitly where the source relies on it.
-/

/-- A decoded JSON value, the result of `json.loads` on the oracle response.
Objects are finite lists of key/value fields (keys produced by `json.loads`
are unique). -/
inductive Json where
  | jnull
  | jbool (b : Bool)
  | jnum (n : Int)
  | jstr (s : String)
  | jarr (elems : List Json)
  | jobj (fields : List (String × Json))

mutual

/-- Python `repr` of a decoded JSON value (used by `str` on containers). -/
def pyRepr : Json → String
  | .jnull => "None"
  | .jbool true => "True"
  | .jbool false => "False"
  | .jnum n => toString n
  | .jstr s => "\x27" ++ s ++ "\x27"
  | .jarr xs => "[" ++ pyReprElems xs ++ "]"
  | .jobj fs => "\x7b" ++ pyReprFields fs ++ "\x7d"

/-- Comma-separated `repr` of the elements of a decoded JSON array. -/
def pyReprElems : List Json → String
  | [] => ""
  | [x] => pyRepr x
  | x :: y :: xs => pyRepr x ++ ", " ++ pyReprElems (y :: xs)

/-- Comma-separated `repr` of the fields of a decoded JSON object. -/
def pyReprFields : List (String × Json) → String
  | [] => ""
  | [(k, v)] => "\x27" ++ k ++ "\x27: " ++ pyRepr v
  | (k, v) :: f :: fs => "\x27" ++ k ++ "\x27: " ++ pyRepr v ++ ", " ++ pyReprFields (f :: fs)

end

/-- Python `str` applied to a decoded JSON value
(source line 221: `str(rec["track"])`, `str(rec["artist"])`). -/
def pyStr : Json → String
  | .jnull => "None"
  | .jbool true => "True"
  | .jbool false => "False"
  | .jnum n => toString n
  | .jstr s => s
  | .jarr xs => "[" ++ pyReprElems xs ++ "]"
  | .jobj fs => "\x7b" ++ pyReprFields fs ++ "\x7d"

/-- A `{"track": ..., "artist": ...}` suggestion as validated from the oracle
output (and also the shape of a fetched liked-song detail record). -/
structure Suggestion where
  track : String
  artist : String
deriving DecidableEq

/-- Python `"k" in rec` on a decoded JSON object's field list. -/
def hasKey (fields : List (String × Json)) (k : String) : Bool :=
  fields.any (fun f => f.1 == k)

/-- Python `rec[k]` on a decoded JSON object's field list (keys are unique in
decoded JSON, so the first match is the value). -/
def lookupKey (fields : List (String × Json)) (k : String) : Json :=
  match fields.find? (fun f => f.1 == k) with
  | some f => f.2
  | none => Json.jnull

/-- Validation of a single oracle recommendation entry, source lines 219-223:
keep it iff it is a dict containing both a `"track"` and an `"artist"` key,
in which case both values are passed through `str`. -/
def toValidSuggestion : Json → Option Suggestion
  | .jobj fields =>
    if hasKey fields "track" && hasKey fields "artist" then
      some ⟨pyStr (lookupKey fields "track"), pyStr (lookupKey fields "artist")⟩
    else none
  | _ => none

/-- The `valid_recommendations` accumulation loop of source lines 218-223. -/
def validRecs (recs : List Json) : List Suggestion :=
  recs.filterMap toValidSuggestion

/-- Source lines 201-211: a bare JSON array is used as the recommendation
list; a JSON object with exactly one key whose value is a list is unwrapped;
every other decoded shape yields the empty recommendation list. -/
def extractList : Json → List Json
  | .jarr xs => xs
  | .jobj [(_, .jarr xs)] => xs
  | _ => []

/-- Outcome of one oracle call (`get_gemini_recommendations_google_ai`):
either the API call raised (or the history guard failed), returning
`([], None)`; or text came back but `json.loads` raised, returning
`([], raw)`; or the text decoded to a JSON value. -/
inductive OracleResult where
  | apiError
  | unparsable (raw : String)
  | parsedJson (raw : String) (content : Json)

/-- The `raw_assistant_response_content` component of the returned pair. -/
def oracleRaw : OracleResult → Option String
  | .apiError => none
  | .unparsable raw => some raw
  | .parsedJson raw _ => some raw

/-- The validated recommendation list returned for one oracle call
(source lines 199-226). -/
def oracleRecs : OracleResult → List Suggestion
  | .apiError => []
  | .unparsable _ => []
  | .parsedJson _ content => validRecs (extractList content)

/-- Python `str.lower` on one character (ASCII case mapping). -/
def pyLowerChar (c : Char) : Char :=
  if 65 ≤ c.toNat ∧ c.toNat ≤ 90 then Char.ofNat (c.toNat + 32) else c

/-- Python `str.lower`. -/
def pyLower (s : String) : String := String.mk (s.data.map pyLowerChar)

/-- Strip leading and trailing whitespace from a character list. -/
def stripChars (cs : List Char) : List Char :=
  ((cs.dropWhile Char.isWhitespace).reverse.dropWhile Char.isWhitespace).reverse

/-- Python `str.strip()`. -/
def pyStrip (s : String) : String := String.mk (stripChars s.data)

/-- Python truthiness of an optional string (`None` and `""` are falsy). -/
def truthyStr : Option String → Bool
  | none => false
  | some s => s ≠ ""

/-- Decimal value of a digit list. -/
def digitsToNat (ds : List Char) : Nat :=
  ds.foldl (fun acc c => 10 * acc + (c.toNat - 48)) 0

/-- Python `int(s)` on a string: surrounding whitespace is stripped, an
optional single sign is allowed, and the remainder must be a nonempty digit
sequence; otherwise `ValueError` (here `none`). -/
def pyInt (cs : List Char) : Option Int :=
  match stripChars cs with
  | [] => none
  | c :: ds =>
    if c = '+' then
      if ds ≠ [] ∧ ds.all Char.isDigit then some (Int.ofNat (digitsToNat ds)) else none
    else if c = '-' then
      if ds ≠ [] ∧ ds.all Char.isDigit then some (-(Int.ofNat (digitsToNat ds))) else none
    else if (c :: ds).all Char.isDigit then some (Int.ofNat (digitsToNat (c :: ds))) else none

/-- Release-year parsing of source lines 252-261: falsy (absent or empty)
date strings give no year; otherwise `int(release_date_str.split('-')[0])`,
and on `ValueError` a fallback accepts a four-character all-digit string.
`split('-')[0]` is the prefix of the string before the first `'-'`. -/
def parseReleaseYear : Option String → Option Int
  | none => none
  | some s =>
    match s.data with
    | [] => none
    | c :: cs =>
      match pyInt ((c :: cs).takeWhile (fun ch => ch ≠ '-')) with
      | some n => some n
      | none =>
        if (c :: cs).length = 4 ∧ (c :: cs).all Char.isDigit then
          some (Int.ofNat (digitsToNat (c :: cs)))
        else none

/-- The fields of a catalog search hit (`results['tracks']['items'][0]`)
consumed by the script: URI, ID, name, artist names in order, popularity and
the album release-date string (each of the latter possibly absent). -/
structure FoundTrack where
  uri : String
  id : String
  name : String
  artists : List String
  popularity : Option Int
  release_date : Option String
deriving DecidableEq

/-- The `song_info` record built at source lines 263-270 for one verified
candidate (the spec's EnrichedCandidate). -/
structure SongInfo where
  uri : String
  id : String
  track : String
  artist : String
  popularity : Option Int
  release_year : Option Int
deriving DecidableEq

/-- Resolution of a single suggestion against the catalog, source lines
238-271: skip malformed suggestions (falsy track or artist), skip search
misses and per-item errors (including an empty `artists` list, whose
indexing raises and is caught); otherwise build the enriched record from the
first hit, recording the first artist only. -/
def enrichSuggestion (search : Suggestion → Option FoundTrack) (s : Suggestion) :
    Option SongInfo :=
  if s.track = "" ∨ s.artist = "" then none
  else
    match search s with
    | none => none
    | some ft =>
      match ft.artists with
      | [] => none
      | a :: _ =>
        some ⟨ft.uri, ft.id, ft.name, a, ft.popularity, parseReleaseYear ft.release_date⟩

/-- `verify_and_filter_songs_on_spotify`: resolve each suggestion in order,
dropping the ones that fail. -/
def verify_and_filter_songs_on_spotify (search : Suggestion → Option FoundTrack)
    (recs : List Suggestion) : List SongInfo :=
  recs.filterMap (enrichSuggestion search)

/-- A role-tagged chat message of `conversation_history`. -/
structure Message where
  role : String
  content : String
deriving DecidableEq

/-- The policy/configuration values consumed by the collection loop:
`TARGET_NEW_SONGS_COUNT`, `MAX_GEMINI_ATTEMPTS`, `MAX_POPULARITY_THRESHOLD`,
`MIN_RELEASE_YEAR`, the normalized liked-songs set and the history-playlist
ID set (sets are membership lists). -/
structure Config where
  target : Nat
  maxAttempts : Nat
  maxPopularity : Option Int
  minReleaseYear : Option Int
  likedSet : List (String × String)
  historyIds : List String

/-- The mutable state threaded through the collection loop of `__main__`:
`collected_new_songs_for_playlist_uris`,
`collected_new_songs_for_playlist_details`, `conversation_history` and
`all_gemini_suggestions_this_session_raw_details`. -/
structure RunState where
  uris : List String
  details : List SongInfo
  conversation_history : List Message
  suggestions : List Suggestion
deriving DecidableEq

/-- One observed oracle call: the history passed to the oracle and the size
of the collected-URI list once the attempt finished. -/
structure AttemptLog where
  sent : List Message
  sizeAfter : Nat
deriving DecidableEq

/-- Construction of `all_my_liked_songs_set`, source lines 328-334: each
fetched liked-song detail is stripped and lower-cased, and the (track,
artist) pair is added to the set when both components are truthy. -/
def buildLikedSet (details : List Suggestion) : List (String × String) :=
  details.foldl (fun acc d =>
    let track := pyLower (pyStrip d.track)
    let artist := pyLower (pyStrip d.artist)
    if track ≠ "" ∧ artist ≠ "" then
      if acc.contains (track, artist) then acc else acc ++ [(track, artist)]
    else acc) []

/-- The `is_too_popular` flag of source lines 444-447. -/
def is_too_popular (maxPop : Option Int) (pop : Option Int) : Bool :=
  match maxPop, pop with
  | some m, some p => decide (m < p)
  | _, _ => false

/-- The `is_too_old` flag of source lines 448-451. -/
def is_too_old (minYear : Option Int) (year : Option Int) : Bool :=
  match minYear, year with
  | some m, some y => decide (y < m)
  | _, _ => false

/-- One step of the acceptance loop over an enriched batch, source lines
432-461: once the target size is reached nothing more is accepted; otherwise
the five rejection flags are computed and, when all are false, the
candidate's URI and details are appended. -/
def acceptSong (cfg : Config) (st : RunState) (song : SongInfo) : RunState :=
  if cfg.target ≤ st.uris.length then st
  else if !cfg.likedSet.contains (pyLower song.track, pyLower song.artist) &&
      !cfg.historyIds.contains song.id &&
      !st.details.any (fun s => s.id == song.id) &&
      !is_too_popular cfg.maxPopularity song.popularity &&
      !is_too_old cfg.minReleaseYear song.release_year then
    { st with uris := st.uris ++ [song.uri], details := st.details ++ [song] }
  else st

/-- The content of the follow-up user prompt, source lines 392-408.  The
fixed instruction prose carries no program logic and is abbreviated; the
part computed from state (the list of all previous oracle suggestions, or a
placeholder when it is empty) is translated faithfully. -/
def follow_up_user_prompt_content (suggested : List Suggestion) : String :=
  let joined := String.intercalate "\n"
    (suggested.map (fun s => "- \"" ++ s.track ++ "\" by " ++ s.artist))
  let listed := if joined = "" then "(None previously suggested in this session)" else joined
  "follow-up user prompt; songs suggested so far:\n" ++ listed

/-- The initial user prompt of source lines 358-376.  Its content is fixed
instruction prose plus the liked-songs sample; no branch of the program
inspects it, so it is abbreviated here. -/
def initial_user_prompt_content : String := "initial user prompt"

/-- Source lines 388-409: on every attempt after the first, a new user-role
follow-up message is appended before the oracle is called. -/
def stepSendHistory (attempt : Nat) (st : RunState) : RunState :=
  if attempt = 0 then st
  else { st with conversation_history :=
    st.conversation_history ++ [⟨"user", follow_up_user_prompt_content st.suggestions⟩] }

/-- The history guard of `get_gemini_recommendations_google_ai`, source
lines 173-175: if the (adapted) history is empty or does not end with a
user-role message, no API call is made and `([], None)` is returned;
otherwise the oracle is consulted. -/
def callOracle (oracle : List Message → OracleResult) (history : List Message) :
    OracleResult :=
  match history.getLast? with
  | some m => if m.role = "user" then oracle history else OracleResult.apiError
  | none => OracleResult.apiError

/-- Source lines 417-419: the raw model response, when truthy, is appended
to the conversation history as one model-role message. -/
def recordModelResponse (st : RunState) (res : OracleResult) : RunState :=
  match oracleRaw res with
  | some raw =>
    if raw = "" then st
    else { st with conversation_history := st.conversation_history ++ [⟨"model", raw⟩] }
  | none => st

/-- Source lines 426-461: record the batch into the running suggestion list,
resolve it against the catalog and run the acceptance loop. -/
def processBatch (cfg : Config) (search : Suggestion → Option FoundTrack)
    (recs : List Suggestion) (st : RunState) : RunState :=
  let st3 := { st with suggestions := st.suggestions ++ recs }
  (verify_and_filter_songs_on_spotify search recs).foldl (acceptSong cfg) st3

/-- The attempt loop of source lines 381-478, by recursion on the remaining
attempt budget (`attempt` is the index of the attempt about to run; the
initial call has `attempt = 0` and budget `MAX_GEMINI_ATTEMPTS`).  Returns
the final state together with one `AttemptLog` per oracle call made. -/
def loopAux (cfg : Config) (oracle : List Message → OracleResult)
    (search : Suggestion → Option FoundTrack) :
    Nat → Nat → RunState → RunState × List AttemptLog
  | _, 0, st => (st, [])
  | attempt, fuel + 1, st =>
    if cfg.target ≤ st.uris.length then (st, [])
    else
      let st1 := stepSendHistory attempt st
      let res := callOracle oracle st1.conversation_history
      let st2 := recordModelResponse st1 res
      if (oracleRecs res).isEmpty then
        let r := loopAux cfg oracle search (attempt + 1) fuel st2
        (r.1, ⟨st1.conversation_history, st2.uris.length⟩ :: r.2)
      else
        let st4 := processBatch cfg search (oracleRecs res) st2
        if cfg.target ≤ st4.uris.length then
          (st4, [⟨st1.conversation_history, st4.uris.length⟩])
        else
          let r := loopAux cfg oracle search (attempt + 1) fuel st4
          (r.1, ⟨st1.conversation_history, st4.uris.length⟩ :: r.2)

/-- The loop state just before the first attempt: empty accumulators and a
conversation seeded with the single initial user prompt (source lines
350-378). -/
def initialRunState : RunState :=
  ⟨[], [], [⟨"user", initial_user_prompt_content⟩], []⟩

/-- The whole collection phase of `__main__`. -/
def runCollection (cfg : Config) (oracle : List Message → OracleResult)
    (search : Suggestion → Option FoundTrack) : RunState × List AttemptLog :=
  loopAux cfg oracle search 0 cfg.maxAttempts initialRunState

/-- `final_uris_for_new_playlist` (source line 480). -/
def final_uris_for_new_playlist (cfg : Config) (st : RunState) : List String :=
  st.uris.take cfg.target

/-- `final_details_for_all_recs_update` (source line 481). -/
def final_details_for_all_recs_update (cfg : Config) (st : RunState) : List SongInfo :=
  st.details.take cfg.target

/-- `TARGET_NEW_SONGS_COUNT` (source line 25). -/
def TARGET_NEW_SONGS_COUNT : Nat := 20

/-- `MAX_GEMINI_ATTEMPTS` (source line 26). -/
def MAX_GEMINI_ATTEMPTS : Nat := 10

/-- `MAX_SONGS_TO_GEMINI_PROMPT` (source line 27). -/
def MAX_SONGS_TO_GEMINI_PROMPT : Nat := 150

/-- `MAX_POPULARITY_THRESHOLD` (source line 34). -/
def MAX_POPULARITY_THRESHOLD : Option Int := some 60

/-- `MIN_RELEASE_YEAR` (source line 35). -/
def MIN_RELEASE_YEAR : Option Int := some 2021

/-- `NEW_PLAYLIST_NAME` (source line 22). -/
def NEW_PLAYLIST_NAME : String := "New AI Deep Cuts"

/-- `ALL_RECS_PLAYLIST_NAME` (source line 23). -/
def ALL_RECS_PLAYLIST_NAME : String := "All AI Deep Cuts History"

/-- One write request issued to the catalog by `update_playlist_items`:
either a full replace of a playlist's items or an append of a chunk. -/
inductive PlaylistRequest where
  | replaceItems (playlistId : String) (uris : List String)
  | addItems (playlistId : String) (uris : List String)
deriving DecidableEq

/-- The URI payload of a write request. -/
def requestUris : PlaylistRequest → List String
  | .replaceItems _ uris => uris
  | .addItems _ uris => uris

/-- The consecutive slices `track_uris[i:i+100]` for
`i in range(0, len(track_uris), 100)` (source lines 299-305), computed with
a structural fuel of `l.length` (each step drops 100 ≥ 1 elements). -/
def chunksGo : Nat → List String → List (List String)
  | _, [] => []
  | 0, _ :: _ => []
  | fuel + 1, x :: rest => (x :: rest).take 100 :: chunksGo fuel ((x :: rest).drop 100)

/-- All 100-element chunks of a URI list, in order. -/
def chunks100 (l : List String) : List (List String) := chunksGo l.length l

/-- `update_playlist_items` (source lines 281-310), as the list of write
requests it issues plus its boolean result.  A falsy playlist ID returns
`False` with no request; an empty URI list in append mode is a no-op; an
empty URI list in replace mode clears the playlist; a replace of at most 100
URIs is a single replace request, a longer one is a clear followed by
100-element appends; appends are always chunked by 100. -/
def update_playlist_items (playlist_id : Option String) (track_uris : List String)
    (replace : Bool) : List PlaylistRequest × Bool :=
  match playlist_id with
  | none => ([], false)
  | some pid =>
    if pid = "" then ([], false)
    else if track_uris = [] ∧ replace = false then ([], true)
    else if track_uris = [] ∧ replace = true then ([PlaylistRequest.replaceItems pid []], true)
    else if replace then
      if track_uris.length ≤ 100 then ([PlaylistRequest.replaceItems pid track_uris], true)
      else (PlaylistRequest.replaceItems pid [] ::
        (chunks100 track_uris).map (PlaylistRequest.addItems pid), true)
    else ((chunks100 track_uris).map (PlaylistRequest.addItems pid), true)

/-- The write requests of the latest-batch sync step (source lines 491-498):
if the destination playlist could not be found or created, none are issued. -/
def newPlaylistRequests (newPlaylistId : Option String) (finalUris : List String) :
    List PlaylistRequest :=
  match newPlaylistId with
  | some pid => (update_playlist_items (some pid) finalUris true).1
  | none => []

/-- The write requests of the history sync step (source lines 500-507): they
are issued only when the history playlist ID is known and the final detail
list is truthy. -/
def historyPlaylistRequests (allRecsPlaylistId : Option String)
    (finalDetails : List SongInfo) : List PlaylistRequest :=
  match allRecsPlaylistId with
  | some pid =>
    if finalDetails.isEmpty then []
    else (update_playlist_items (some pid) (finalDetails.map SongInfo.uri) false).1
  | none => []

/-- The full playlist-sync phase: the latest-batch replace step runs first,
the history append step runs second, and each is skipped independently when
its destination is unavailable. -/
def mainSyncRequests (newPlaylistId allRecsPlaylistId : Option String)
    (finalUris : List String) (finalDetails : List SongInfo) : List PlaylistRequest :=
  newPlaylistRequests newPlaylistId finalUris ++
    historyPlaylistRequests allRecsPlaylistId finalDetails

/-- The four required configuration values read from the environment
(source lines 16-19); `os.getenv` yields `None` when a variable is unset. -/
structure Env where
  spotifyClientId : Option String
  spotifyClientSecret : Option String
  spotifyRedirectUri : Option String
  googleAiApiKey : Option String

/-- The gate of source line 314: `all([...])` over the four configuration
values, which are truthy iff present and nonempty. -/
def mainConfigOk (env : Env) : Bool :=
  truthyStr env.spotifyClientId && truthyStr env.spotifyClientSecret &&
    truthyStr env.spotifyRedirectUri && truthyStr env.googleAiApiKey

/-- A saved-track or playlist item as the script reads it from a catalog
page: the optional `track` object with its `id`, `name` and artist names.
`none` components model absent/`None` fields. -/
structure RawTrack where
  id : Option String
  name : Option String
  artists : List String
deriving DecidableEq

/-- Per-item extraction of `get_all_liked_songs_details` (source lines
76-84): the item's track must be truthy with truthy name and a nonempty
artist list; only the first artist's name is recorded. -/
def likedSongOfItem : Option RawTrack → Option Suggestion
  | none => none
  | some t =>
    if truthyStr t.name && !t.artists.isEmpty then
      match t.artists with
      | a :: _ => some ⟨t.name.getD "", a⟩
      | [] => none
    else none

/-- A simplified playlist track of `get_playlist_tracks_simplified`. -/
structure PlaylistTrack where
  track : String
  artist : String
  id : String
deriving DecidableEq

/-- Per-item extraction of `get_playlist_tracks_simplified` (source lines
135-144): additionally requires a truthy track ID; only the first artist's
name is recorded. -/
def playlistTrackOfItem : Option RawTrack → Option PlaylistTrack
  | none => none
  | some t =>
    if truthyStr t.id && truthyStr t.name && !t.artists.isEmpty then
      match t.artists with
      | a :: _ => some ⟨t.name.getD "", a, t.id.getD ""⟩
      | [] => none
    else none

/-- Construction of `all_recs_history_track_ids_set` (source lines 344-347):
the set of truthy track IDs of the history playlist's fetched tracks. -/
def buildHistoryIdSet (l : List PlaylistTrack) : List String :=
  l.foldl (fun acc t =>
    if t.id = "" then acc
    else if acc.contains t.id then acc else acc ++ [t.id]) []

/-- The external world consumed by one run: the fetched catalog pages, the
find-or-create results for the two destination playlists, the oracle and
the search capability. -/
structure World where
  likedItems : List (Option RawTrack)
  allRecsPlaylistId : Option String
  newPlaylistId : Option String
  historyItems : List (Option RawTrack)
  oracle : List Message → OracleResult
  search : Suggestion → Option FoundTrack

/-- A network interaction of the main program, recorded in order. -/
inductive Effect where
  | spotifyAuth
  | fetchCurrentUser
  | fetchLikedSongs
  | getOrCreatePlaylist (name : String)
  | fetchPlaylistTracks (pid : String)
  | oracleCall
  | playlistWrite (req : PlaylistRequest)
deriving DecidableEq

/-- The collection-loop configuration built by `__main__` from the fetched
world and the module constants. -/
def mainCfg (w : World) : Config :=
  ⟨TARGET_NEW_SONGS_COUNT, MAX_GEMINI_ATTEMPTS, MAX_POPULARITY_THRESHOLD, MIN_RELEASE_YEAR,
    buildLikedSet (w.likedItems.filterMap likedSongOfItem),
    buildHistoryIdSet ((if w.allRecsPlaylistId.isSome then w.historyItems else []).filterMap
      playlistTrackOfItem)⟩

/-- The main program of source lines 313-509, as its process exit code plus
the ordered network effects it performs.  Missing configuration exits with
code 1 before anything else; no liked songs and no collected songs exit with
code 0 (`exit()`); otherwise the two sync steps run and the process ends
normally (code 0). -/
def mainProgram (env : Env) (w : World) : Nat × List Effect :=
  if !mainConfigOk env then (1, [])
  else
    let liked := w.likedItems.filterMap likedSongOfItem
    let eff0 := [Effect.spotifyAuth, Effect.fetchCurrentUser, Effect.fetchLikedSongs]
    if liked.isEmpty then (0, eff0)
    else
      let eff1 := eff0 ++ [Effect.getOrCreatePlaylist ALL_RECS_PLAYLIST_NAME] ++
        (match w.allRecsPlaylistId with
         | some pid => [Effect.fetchPlaylistTracks pid]
         | none => [])
      let cfg := mainCfg w
      let r := runCollection cfg w.oracle w.search
      let eff2 := eff1 ++ r.2.map (fun _ => Effect.oracleCall)
      let finalUris := final_uris_for_new_playlist cfg r.1
      let finalDetails := final_details_for_all_recs_update cfg r.1
      if finalUris.isEmpty then (0, eff2)
      else
        let eff3 := eff2 ++ [Effect.getOrCreatePlaylist NEW_PLAYLIST_NAME]
        (0, eff3 ++ (mainSyncRequests w.newPlaylistId w.allRecsPlaylistId finalUris
          finalDetails).map Effect.playlistWrite)

/-! ## Basic state lemmas -/

@[simp] lemma stepSendHistory_uris (attempt : Nat) (st : RunState) :
    (stepSendHistory attempt st).uris = st.uris := by
  unfold stepSendHistory; split <;> rfl

@[simp] lemma stepSendHistory_details (attempt : Nat) (st : RunState) :
    (stepSendHistory attempt st).details = st.details := by
  unfold stepSendHistory; split <;> rfl

@[simp] lemma stepSendHistory_suggestions (attempt : Nat) (st : RunState) :
    (stepSendHistory attempt st).suggestions = st.suggestions := by
  unfold stepSendHistory; split <;> rfl

@[simp] lemma recordModelResponse_uris (st : RunState) (res : OracleResult) :
    (recordModelResponse st res).uris = st.uris := by
  unfold recordModelResponse
  cases h : oracleRaw res <;> simp only []
  split <;> rfl

@[simp] lemma recordModelResponse_details (st : RunState) (res : OracleResult) :
    (recordModelResponse st res).details = st.details := by
  unfold recordModelResponse
  cases h : oracleRaw res <;> simp only []
  split <;> rfl

@[simp] lemma recordModelResponse_suggestions (st : RunState) (res : OracleResult) :
    (recordModelResponse st res).suggestions = st.suggestions := by
  unfold recordModelResponse
  cases h : oracleRaw res <;> simp only []
  split <;> rfl

@[simp] lemma acceptSong_history (cfg : Config) (st : RunState) (song : SongInfo) :
    (acceptSong cfg st song).conversation_history = st.conversation_history := by
  unfold acceptSong; split
  · rfl
  · split <;> rfl

@[simp] lemma acceptSong_suggestions (cfg : Config) (st : RunState) (song : SongInfo) :
    (acceptSong cfg st song).suggestions = st.suggestions := by
  unfold acceptSong; split
  · rfl
  · split <;> rfl

lemma foldl_acceptSong_history (cfg : Config) (batch : List SongInfo) (st : RunState) :
    (batch.foldl (acceptSong cfg) st).conversation_history = st.conversation_history := by
  induction batch generalizing st with
  | nil => rfl
  | cons b bs ih => simpa using ih (acceptSong cfg st b)

@[simp] lemma processBatch_history (cfg : Config) (search : Suggestion → Option FoundTrack)
    (recs : List Suggestion) (st : RunState) :
    (processBatch cfg search recs st).conversation_history = st.conversation_history := by
  unfold processBatch
  exact foldl_acceptSong_history cfg _ _

/-! ## C6: shape handling of the oracle response -/

/-- C6: the parser yields the element list of a bare JSON array, or of the
list wrapped by a single-key JSON object; a validated entry survives iff it
is an object containing both a `"track"` and an `"artist"` field; any other
decoded shape, unparsable text, or an API error yields zero suggestions. -/
theorem oracle_response_parsing :
    (∀ xs, extractList (Json.jarr xs) = xs) ∧
    (∀ k xs, extractList (Json.jobj [(k, Json.jarr xs)]) = xs) ∧
    (∀ raw, oracleRecs (OracleResult.unparsable raw) = []) ∧
    (oracleRecs OracleResult.apiError = []) ∧
    (∀ raw content,
      oracleRecs (OracleResult.parsedJson raw content) = validRecs (extractList content)) ∧
    (∀ xs, validRecs xs = xs.filterMap toValidSuggestion) ∧
    (∀ j, (toValidSuggestion j).isSome = true ↔
      ∃ fields, j = Json.jobj fields ∧
        hasKey fields "track" = true ∧ hasKey fields "artist" = true) ∧
    (∀ j, (∀ xs, j ≠ Json.jarr xs) → (∀ k xs, j ≠ Json.jobj [(k, Json.jarr xs)]) →
      extractList j = []) := by
  refine ⟨fun xs => rfl, fun k xs => rfl, fun raw => rfl, rfl, fun raw content => rfl,
    fun xs => rfl, ?_, ?_⟩
  · intro j
    cases j with
    | jobj fields =>
      simp only [toValidSuggestion]
      split
      · rename_i h
        simp only [Bool.and_eq_true] at h
        constructor
        · intro _
          exact ⟨fields, rfl, h.1, h.2⟩
        · intro _
          rfl
      · rename_i h
        simp only [Bool.and_eq_true] at h
        constructor
        · intro hf
          simp at hf
        · rintro ⟨fields', heq, h1, h2⟩
          cases heq
          exact (h ⟨h1, h2⟩).elim
    | jnull => simp [toValidSuggestion]
    | jbool b => simp [toValidSuggestion]
    | jnum n => simp [toValidSuggestion]
    | jstr s => simp [toValidSuggestion]
    | jarr xs => simp [toValidSuggestion]
  · intro j h1 h2
    cases j with
    | jarr xs => exact absurd rfl (h1 xs)
    | jobj fields =>
      match fields with
      | [] => rfl
      | [(k, v)] =>
        cases v with
        | jarr xs => exact absurd rfl (h2 k xs)
        | jnull => rfl
        | jbool b => rfl
        | jnum n => rfl
        | jstr s => rfl
        | jobj fs => rfl
      | (k, v) :: f :: fs => cases v <;> rfl
    | jnull => rfl
    | jbool b => rfl
    | jnum n => rfl
    | jstr s => rfl

/-- Witness for `oracle_response_parsing`: the hypothesis-bearing conjunct,
applied at the concrete non-list, non-wrapped shape `jnum 5`. -/
theorem oracle_response_parsing_witness : extractList (Json.jnum 5) = [] :=
  oracle_response_parsing.2.2.2.2.2.2.2 (Json.jnum 5)
    (fun xs h => by cases h) (fun k xs h => by cases h)

/-! ## C8: playlist-sync batching and independence -/

lemma chunksGo_chunk_le (fuel : Nat) :
    ∀ l : List String, ∀ c ∈ chunksGo fuel l, c.length ≤ 100 := by
  induction fuel with
  | zero =>
    intro l c hc
    cases l with
    | nil => simp [chunksGo] at hc
    | cons x rest => simp [chunksGo] at hc
  | succ fuel ih =>
    intro l c hc
    cases l with
    | nil => simp [chunksGo] at hc
    | cons x rest =>
      rw [chunksGo] at hc
      rcases List.mem_cons.mp hc with h | h
      · subst h
        exact List.length_take_le 100 (x :: rest)
      · exact ih _ c h

lemma chunks100_chunk_le (l : List String) : ∀ c ∈ chunks100 l, c.length ≤ 100 :=
  chunksGo_chunk_le l.length l

lemma update_playlist_items_chunk_le (playlist_id : Option String)
    (track_uris : List String) (replace : Bool) :
    ∀ req ∈ (update_playlist_items playlist_id track_uris replace).1,
      (requestUris req).length ≤ 100 := by
  intro req hreq
  unfold update_playlist_items at hreq
  cases playlist_id with
  | none => simp at hreq
  | some pid =>
    simp only at hreq
    split at hreq
    · simp at hreq
    · split at hreq
      · simp at hreq
      · split at hreq
        · rename_i h
          simp only [List.mem_singleton] at hreq
          subst hreq
          simp [requestUris]
        · split at hreq
          · split at hreq
            · rename_i h
              simp only [List.mem_singleton] at hreq
              subst hreq
              simpa [requestUris] using h
            · rcases List.mem_cons.mp hreq with h | h
              · subst h; simp [requestUris]
              · rcases List.mem_map.mp h with ⟨c, hc, rfl⟩
                simpa [requestUris] using chunks100_chunk_le _ c hc
          · rcases List.mem_map.mp hreq with ⟨c, hc, rfl⟩
            simpa [requestUris] using chunks100_chunk_le _ c hc

/-- C8: every write request issued by either playlist-sync step carries at
most 100 track URIs, and losing one destination playlist leaves the other
destination's requests untouched (the latest-batch step skipped still lets
the history step issue exactly its own requests, and vice versa). -/
theorem playlist_sync_batching :
    (∀ newId allId finalUris finalDetails req,
      req ∈ mainSyncRequests newId allId finalUris finalDetails →
      (requestUris req).length ≤ 100) ∧
    (∀ allId finalUris finalDetails,
      mainSyncRequests none allId finalUris finalDetails =
        historyPlaylistRequests allId finalDetails) ∧
    (∀ newId finalUris finalDetails,
      mainSyncRequests newId none finalUris finalDetails =
        newPlaylistRequests newId finalUris) := by
  refine ⟨?_, ?_, ?_⟩
  · intro newId allId finalUris finalDetails req hreq
    rcases List.mem_append.mp hreq with h | h
    · cases newId with
      | none => simp [newPlaylistRequests] at h
      | some pid => exact update_playlist_items_chunk_le _ _ _ req h
    · cases allId with
      | none => simp [historyPlaylistRequests] at h
      | some pid =>
        simp only [historyPlaylistRequests] at h
        split at h
        · simp at h
        · exact update_playlist_items_chunk_le _ _ _ req h
  · intro allId finalUris finalDetails
    simp [mainSyncRequests, newPlaylistRequests]
  · intro newId finalUris finalDetails
    simp [mainSyncRequests, historyPlaylistRequests]

/-- Witness for `playlist_sync_batching`: the 100-URI bound applied to the
first request of a run syncing one collected song to both playlists. -/
theorem playlist_sync_batching_witness :
    (PlaylistRequest.replaceItems "p1" ["spotify:track:u1"] ∈
      mainSyncRequests (some "p1") (some "p2") ["spotify:track:u1"]
        [⟨"spotify:track:u1", "id1", "gold", "artist b", some 10, some 2023⟩]) ∧
    (requestUris (PlaylistRequest.replaceItems "p1" ["spotify:track:u1"])).length ≤ 100 := by
  refine ⟨by decide, ?_⟩
  exact playlist_sync_batching.1 (some "p1") (some "p2") ["spotify:track:u1"]
    [⟨"spotify:track:u1", "id1", "gold", "artist b", some 10, some 2023⟩]
    (PlaylistRequest.replaceItems "p1" ["spotify:track:u1"]) (by decide)

/-! ## C4: release-year parsing -/

lemma isDigit_not_isWhitespace {c : Char} (h : c.isDigit = true) :
    c.isWhitespace = false := by
  by_contra hw
  rw [Bool.not_eq_false] at hw
  simp only [Char.isWhitespace, Bool.or_eq_true, decide_eq_true_eq] at hw
  rcases hw with ((rfl | rfl) | rfl) | rfl <;> exact absurd h (by decide)

lemma isDigit_ne_dash {c : Char} (h : c.isDigit = true) : c ≠ '-' := by
  rintro rfl
  exact absurd h (by decide)

lemma isDigit_ne_plus {c : Char} (h : c.isDigit = true) : c ≠ '+' := by
  rintro rfl
  exact absurd h (by decide)

lemma dropWhile_eq_self_of_all {p : Char → Bool} {l : List Char}
    (h : ∀ c ∈ l, p c = false) : l.dropWhile p = l := by
  cases l with
  | nil => rfl
  | cons a t => simp [List.dropWhile_cons, h a (List.mem_cons_self a t)]

lemma stripChars_eq_self {cs : List Char} (h : ∀ c ∈ cs, c.isWhitespace = false) :
    stripChars cs = cs := by
  unfold stripChars
  rw [dropWhile_eq_self_of_all h,
    dropWhile_eq_self_of_all (fun c hc => h c (List.mem_reverse.mp hc)),
    List.reverse_reverse]

lemma takeWhile_append_of_all (p : Char → Bool) (y rest : List Char)
    (hy : ∀ c ∈ y, p c = true)
    (hr : rest = [] ∨ ∃ c t, rest = c :: t ∧ p c = false) :
    (y ++ rest).takeWhile p = y := by
  induction y with
  | nil =>
    rcases hr with rfl | ⟨c, t, rfl, hc⟩
    · rfl
    · simp [List.takeWhile_cons, hc]
  | cons a y ih =>
    have ha : p a = true := hy a (List.mem_cons_self a y)
    simp only [List.cons_append, List.takeWhile_cons, ha, if_true]
    rw [ih (fun c hc => hy c (List.mem_cons_of_mem a hc))]

lemma pyInt_all_digits {c : Char} {ds : List Char}
    (h : ∀ x ∈ c :: ds, x.isDigit = true) :
    pyInt (c :: ds) = some (Int.ofNat (digitsToNat (c :: ds))) := by
  have hc : c.isDigit = true := h c (List.mem_cons_self c ds)
  unfold pyInt
  rw [stripChars_eq_self (fun x hx => isDigit_not_isWhitespace (h x hx))]
  simp only [if_neg (isDigit_ne_plus hc), if_neg (isDigit_ne_dash hc)]
  rw [if_pos (List.all_eq_true.mpr h)]

/-- C4: a catalog release-date string beginning with a four-digit year
followed by nothing or by a `'-'` (the catalog's `YYYY`, `YYYY-MM`,
`YYYY-MM-DD` formats) is parsed to exactly that four-digit year; an absent
date string yields no year, and whenever no year was parsed the `is_too_old`
filter rejects nothing. -/
theorem release_year_parsing :
    (∀ y rest : List Char, y.length = 4 → (∀ c ∈ y, c.isDigit = true) →
      (rest = [] ∨ ∃ t, rest = '-' :: t) →
      parseReleaseYear (some (String.mk (y ++ rest))) =
        some (Int.ofNat (digitsToNat y))) ∧
    (parseReleaseYear none = none) ∧
    (∀ m, is_too_old m none = false) ∧
    (∀ s m, parseReleaseYear (some s) = none →
      is_too_old m (parseReleaseYear (some s)) = false) := by
  refine ⟨?_, rfl, ?_, ?_⟩
  · intro y rest hlen hdig hrest
    cases y with
    | nil => simp at hlen
    | cons a y' =>
      have htake : (a :: (y' ++ rest)).takeWhile (fun ch => decide (ch ≠ '-')) = a :: y' := by
        have := takeWhile_append_of_all (fun ch => decide (ch ≠ '-')) (a :: y') rest
          (fun c hc => decide_eq_true (isDigit_ne_dash (hdig c hc)))
          (by
            rcases hrest with rfl | ⟨t, rfl⟩
            · exact Or.inl rfl
            · exact Or.inr ⟨'-', t, rfl, by decide⟩)
        simpa using this
      have hdig' : ∀ x ∈ a :: y', x.isDigit = true := hdig
      show parseReleaseYear (some (String.mk (a :: (y' ++ rest)))) = _
      unfold parseReleaseYear
      simp only []
      rw [htake, pyInt_all_digits hdig']
  · intro m
    cases m <;> rfl
  · intro s m h
    rw [h]
    cases m <;> rfl

/-- Witness for `release_year_parsing`: the date string `"2023-05-01"`
parses to year 2023, and an unparsable date string rejects nothing. -/
theorem release_year_parsing_witness :
    parseReleaseYear (some "2023-05-01") = some 2023 ∧
    is_too_old MIN_RELEASE_YEAR (parseReleaseYear (some "today")) = false := by
  constructor
  · have h := release_year_parsing.1 ['2', '0', '2', '3'] ['-', '0', '5', '-', '0', '1']
      (by decide) (by decide) (Or.inr ⟨['0', '5', '-', '0', '1'], rfl⟩)
    simpa using h
  · exact release_year_parsing.2.2.2 "today" MIN_RELEASE_YEAR (by decide)

/-! ## C9: configuration gate and empty-result exit -/

/-- C9: when any of the four required configuration values is missing (or
empty, hence falsy), the program exits with code 1 having performed no
network effect at all; when configuration is present and the collection
phase ends with an empty final URI list, the program exits with code 0 and
performs no playlist-write effect. -/
theorem main_exit_behaviour (env : Env) (w : World) :
    (mainConfigOk env = false → mainProgram env w = (1, [])) ∧
    (mainConfigOk env = true →
      (final_uris_for_new_playlist (mainCfg w)
        (runCollection (mainCfg w) w.oracle w.search).1).isEmpty = true →
      (mainProgram env w).1 = 0 ∧
      ∀ e ∈ (mainProgram env w).2, ∀ req, e ≠ Effect.playlistWrite req) := by
  constructor
  · intro h
    simp [mainProgram, h]
  · intro hok hempty
    by_cases hl : (w.likedItems.filterMap likedSongOfItem).isEmpty = true
    · have hmain : mainProgram env w =
          (0, [Effect.spotifyAuth, Effect.fetchCurrentUser, Effect.fetchLikedSongs]) := by
        simp [mainProgram, hok, hl]
      rw [hmain]
      refine ⟨rfl, ?_⟩
      intro e he req
      rintro rfl
      simp at he
    · have hmain : mainProgram env w =
          (0, ([Effect.spotifyAuth, Effect.fetchCurrentUser, Effect.fetchLikedSongs] ++
            [Effect.getOrCreatePlaylist ALL_RECS_PLAYLIST_NAME] ++
            (match w.allRecsPlaylistId with
             | some pid => [Effect.fetchPlaylistTracks pid]
             | none => [])) ++
            (runCollection (mainCfg w) w.oracle w.search).2.map
              (fun _ => Effect.oracleCall)) := by
        simp only [mainProgram, hok, Bool.not_true, if_false, hl, hempty, Bool.false_eq_true,
          if_true]
      rw [hmain]
      refine ⟨rfl, ?_⟩
      intro e he req
      rintro rfl
      rcases List.mem_append.mp he with h | h
      · cases hrec : w.allRecsPlaylistId with
        | none => rw [hrec] at h; simp at h
        | some pid => rw [hrec] at h; simp at h
      · rcases List.mem_map.mp h with ⟨x, hx, heq⟩
        exact absurd heq (by nofun)

/-- Witness for `main_exit_behaviour`: with the oracle API key unset, the
program exits 1 with no effect; and an oracle that always errors yields the
code-0, no-sync exit. -/
theorem main_exit_behaviour_witness :
    mainProgram ⟨some "id", some "secret", some "uri", none⟩
      ⟨[], none, none, [], fun _ => OracleResult.apiError, fun _ => none⟩ = (1, []) :=
  (main_exit_behaviour ⟨some "id", some "secret", some "uri", none⟩
    ⟨[], none, none, [], fun _ => OracleResult.apiError, fun _ => none⟩).1 (by decide)

/-! ## C10: only the first listed artist matters -/

/-- Two catalog search outcomes that agree on everything the script reads:
URI, ID, name, popularity, release date and the *first* artist name (and on
whether the artist list is empty); the tail of the artist list is free. -/
def firstArtistEquiv (a b : Option FoundTrack) : Prop :=
  match a, b with
  | none, none => True
  | some a, some b =>
    a.uri = b.uri ∧ a.id = b.id ∧ a.name = b.name ∧ a.popularity = b.popularity ∧
      a.release_date = b.release_date ∧ a.artists.head? = b.artists.head?
  | _, _ => False

lemma enrichSuggestion_of_found {search : Suggestion → Option FoundTrack} {s : Suggestion}
    {ft : FoundTrack} (hs : ¬(s.track = "" ∨ s.artist = "")) (h : search s = some ft) :
    enrichSuggestion search s =
      match ft.artists with
      | [] => none
      | a :: _ =>
        some ⟨ft.uri, ft.id, ft.name, a, ft.popularity, parseReleaseYear ft.release_date⟩ := by
  unfold enrichSuggestion
  rw [if_neg hs, h]

lemma enrichSuggestion_congr {search₁ search₂ : Suggestion → Option FoundTrack}
    (h : ∀ s, firstArtistEquiv (search₁ s) (search₂ s)) (s : Suggestion) :
    enrichSuggestion search₁ s = enrichSuggestion search₂ s := by
  by_cases hcond : s.track = "" ∨ s.artist = ""
  · unfold enrichSuggestion
    rw [if_pos hcond, if_pos hcond]
  · have hs := h s
    cases h1 : search₁ s with
    | none =>
      cases h2 : search₂ s with
      | none =>
        unfold enrichSuggestion
        rw [if_neg hcond, if_neg hcond, h1, h2]
      | some b => rw [h1, h2] at hs; simp only [firstArtistEquiv] at hs
    | some a =>
      cases h2 : search₂ s with
      | none => rw [h1, h2] at hs; simp only [firstArtistEquiv] at hs
      | some b =>
        rw [h1, h2] at hs
        simp only [firstArtistEquiv] at hs
        obtain ⟨huri, hid, hname, hpop, hrd, hhead⟩ := hs
        rw [enrichSuggestion_of_found hcond h1, enrichSuggestion_of_found hcond h2]
        cases ha : a.artists with
        | nil =>
          cases hb : b.artists with
          | nil => rfl
          | cons b0 bt => rw [ha, hb] at hhead; cases hhead
        | cons a0 at1 =>
          cases hb : b.artists with
          | nil => rw [ha, hb] at hhead; cases hhead
          | cons b0 bt =>
            rw [ha, hb] at hhead
            simp only [List.head?_cons, Option.some.injEq] at hhead
            subst hhead
            simp [huri, hid, hname, hpop, hrd]

lemma loopAux_search_congr (cfg : Config) (oracle : List Message → OracleResult)
    {search₁ search₂ : Suggestion → Option FoundTrack}
    (hfun : enrichSuggestion search₁ = enrichSuggestion search₂) :
    ∀ fuel attempt st,
      loopAux cfg oracle search₁ attempt fuel st =
        loopAux cfg oracle search₂ attempt fuel st := by
  intro fuel
  induction fuel with
  | zero => intro attempt st; rfl
  | succ fuel ih =>
    intro attempt st
    rw [loopAux, loopAux]
    split
    · rfl
    · have hpb : ∀ recs st',
          processBatch cfg search₁ recs st' = processBatch cfg search₂ recs st' := by
        intro recs st'
        unfold processBatch verify_and_filter_songs_on_spotify
        rw [hfun]
      simp only [hpb, ih]

/-- C10: the liked-song extraction, the playlist-track extraction and the
candidate enrichment all record exactly the first listed artist, and two
catalog search functions whose answers differ only in secondary artists
drive the whole collection phase to identical results. -/
theorem first_artist_only :
    (∀ t : RawTrack, ∀ s, likedSongOfItem (some t) = some s →
      s.artist = t.artists.headD "") ∧
    (∀ t : RawTrack, ∀ s, playlistTrackOfItem (some t) = some s →
      s.artist = t.artists.headD "") ∧
    (∀ search : Suggestion → Option FoundTrack, ∀ sug ft si,
      search sug = some ft → enrichSuggestion search sug = some si →
      si.artist = ft.artists.headD "") ∧
    (∀ cfg oracle (search₁ search₂ : Suggestion → Option FoundTrack),
      (∀ s, firstArtistEquiv (search₁ s) (search₂ s)) →
      runCollection cfg oracle search₁ = runCollection cfg oracle search₂) := by
  refine ⟨?_, ?_, ?_, ?_⟩
  · intro t s h
    simp only [likedSongOfItem] at h
    split at h
    · cases hart : t.artists with
      | nil => rw [hart] at h; cases h
      | cons a rest => rw [hart] at h; cases h; simp [hart]
    · cases h
  · intro t s h
    simp only [playlistTrackOfItem] at h
    split at h
    · cases hart : t.artists with
      | nil => rw [hart] at h; cases h
      | cons a rest => rw [hart] at h; cases h; simp [hart]
    · cases h
  · intro search sug ft si h1 h2
    by_cases hcond : sug.track = "" ∨ sug.artist = ""
    · unfold enrichSuggestion at h2
      rw [if_pos hcond] at h2
      cases h2
    · rw [enrichSuggestion_of_found hcond h1] at h2
      cases hart : ft.artists with
      | nil => rw [hart] at h2; cases h2
      | cons a rest => rw [hart] at h2; cases h2; simp [hart]
  · intro cfg oracle search₁ search₂ h
    unfold runCollection
    rw [loopAux_search_congr cfg oracle (funext (enrichSuggestion_congr h)) cfg.maxAttempts 0
      initialRunState]

/-- Witness for `first_artist_only`: two searches that differ only in a
secondary artist produce identical runs. -/
theorem first_artist_only_witness :
    runCollection ⟨1, 1, some 60, some 2021, [], []⟩
      (fun _ => OracleResult.parsedJson "r"
        (Json.jarr [Json.jobj [("track", Json.jstr "gold"), ("artist", Json.jstr "artist b")]]))
      (fun _ => some ⟨"u", "i", "gold", ["artist b", "x"], some 10, some "2023"⟩) =
    runCollection ⟨1, 1, some 60, some 2021, [], []⟩
      (fun _ => OracleResult.parsedJson "r"
        (Json.jarr [Json.jobj [("track", Json.jstr "gold"), ("artist", Json.jstr "artist b")]]))
      (fun _ => some ⟨"u", "i", "gold", ["artist b", "y"], some 10, some "2023"⟩) :=
  first_artist_only.2.2.2 ⟨1, 1, some 60, some 2021, [], []⟩
    (fun _ => OracleResult.parsedJson "r"
      (Json.jarr [Json.jobj [("track", Json.jstr "gold"), ("artist", Json.jstr "artist b")]]))
    (fun _ => some ⟨"u", "i", "gold", ["artist b", "x"], some 10, some "2023"⟩)
    (fun _ => some ⟨"u", "i", "gold", ["artist b", "y"], some 10, some "2023"⟩)
    (fun _ => ⟨rfl, rfl, rfl, rfl, rfl, rfl⟩)

/-! ## The acceptance invariant (C1, C2) -/

/-- The conditions that the acceptance test of source lines 436-457
guarantees for every accepted candidate. -/
def SongOk (cfg : Config) (s : SongInfo) : Prop :=
  cfg.likedSet.contains (pyLower s.track, pyLower s.artist) = false ∧
  cfg.historyIds.contains s.id = false ∧
  is_too_popular cfg.maxPopularity s.popularity = false ∧
  is_too_old cfg.minReleaseYear s.release_year = false

/-- The loop invariant on the collected accumulators. -/
def GoodState (cfg : Config) (st : RunState) : Prop :=
  st.uris.length = st.details.length ∧
  st.details.length ≤ cfg.target ∧
  st.details.Pairwise (fun a b => a.id ≠ b.id) ∧
  ∀ s ∈ st.details, SongOk cfg s

lemma acceptSong_good {cfg : Config} {st : RunState} {song : SongInfo}
    (h : GoodState cfg st) : GoodState cfg (acceptSong cfg st song) := by
  obtain ⟨hlen, hle, hpw, hok⟩ := h
  unfold acceptSong
  split
  · exact ⟨hlen, hle, hpw, hok⟩
  · rename_i hlt
    split
    · rename_i hc
      simp only [Bool.and_eq_true, Bool.not_eq_true'] at hc
      obtain ⟨⟨⟨⟨hliked, hhist⟩, hcoll⟩, hpop⟩, hold⟩ := hc
      refine ⟨?_, ?_, ?_, ?_⟩
      · simp [hlen]
      · simp only [List.length_append, List.length_singleton]
        omega
      · rw [List.pairwise_append]
        refine ⟨hpw, List.pairwise_singleton _ _, ?_⟩
        intro a ha b hb
        rw [List.mem_singleton] at hb
        subst hb
        intro heq
        exact (List.any_eq_false.mp hcoll a ha) (by simp [heq])
      · intro s hs
        rcases List.mem_append.mp hs with hs | hs
        · exact hok s hs
        · rw [List.mem_singleton] at hs
          subst hs
          exact ⟨hliked, hhist, hpop, hold⟩
    · exact ⟨hlen, hle, hpw, hok⟩

lemma foldl_acceptSong_good {cfg : Config} (batch : List SongInfo) :
    ∀ st : RunState, GoodState cfg st → GoodState cfg (batch.foldl (acceptSong cfg) st) := by
  induction batch with
  | nil => intro st h; exact h
  | cons b bs ih => intro st h; exact ih _ (acceptSong_good h)

lemma goodState_congr {cfg : Config} {st st' : RunState} (h1 : st'.uris = st.uris)
    (h2 : st'.details = st.details) (h : GoodState cfg st) : GoodState cfg st' := by
  obtain ⟨a, b, c, d⟩ := h
  refine ⟨?_, ?_, ?_, ?_⟩
  · rw [h1, h2]; exact a
  · rw [h2]; exact b
  · rw [h2]; exact c
  · rw [h2]; exact d

lemma stepSend_record_good {cfg : Config} (attempt : Nat) (res : OracleResult)
    {st : RunState} (h : GoodState cfg st) :
    GoodState cfg (recordModelResponse (stepSendHistory attempt st) res) :=
  goodState_congr (by simp) (by simp) h

lemma processBatch_good {cfg : Config} {search : Suggestion → Option FoundTrack}
    {recs : List Suggestion} {st : RunState} (h : GoodState cfg st) :
    GoodState cfg (processBatch cfg search recs st) := by
  unfold processBatch
  exact foldl_acceptSong_good _ _ (goodState_congr rfl rfl h)

lemma loopAux_good (cfg : Config) (oracle : List Message → OracleResult)
    (search : Suggestion → Option FoundTrack) :
    ∀ fuel attempt st, GoodState cfg st →
      GoodState cfg (loopAux cfg oracle search attempt fuel st).1 ∧
      ∀ log ∈ (loopAux cfg oracle search attempt fuel st).2,
        log.sizeAfter ≤ cfg.target := by
  intro fuel
  induction fuel with
  | zero =>
    intro attempt st h
    simp only [loopAux]
    exact ⟨h, by simp⟩
  | succ fuel ih =>
    intro attempt st h
    rw [loopAux]
    split
    · exact ⟨h, by simp⟩
    · dsimp only
      split
      · obtain ⟨hg, hl⟩ := ih (attempt + 1) _ (stepSend_record_good attempt _ h)
        refine ⟨hg, ?_⟩
        intro log hlog
        rcases List.mem_cons.mp hlog with rfl | hlog
        · have h2 := stepSend_record_good attempt
            (callOracle oracle (stepSendHistory attempt st).conversation_history) h
          simpa using le_trans (le_of_eq h2.1) h2.2.1
        · exact hl log hlog
      · have h4 : GoodState cfg (processBatch cfg search
            (oracleRecs (callOracle oracle (stepSendHistory attempt st).conversation_history))
            (recordModelResponse (stepSendHistory attempt st)
              (callOracle oracle (stepSendHistory attempt st).conversation_history))) :=
          processBatch_good (stepSend_record_good attempt _ h)
        split
        · refine ⟨h4, ?_⟩
          intro log hlog
          rw [List.mem_singleton] at hlog
          subst hlog
          simpa using le_trans (le_of_eq h4.1) h4.2.1
        · obtain ⟨hg, hl⟩ := ih (attempt + 1) _ h4
          refine ⟨hg, ?_⟩
          intro log hlog
          rcases List.mem_cons.mp hlog with rfl | hlog
          · simpa using le_trans (le_of_eq h4.1) h4.2.1
          · exact hl log hlog

lemma initialRunState_good (cfg : Config) : GoodState cfg initialRunState := by
  refine ⟨rfl, by simp [initialRunState], by simp [initialRunState], by simp [initialRunState]⟩

lemma runCollection_good (cfg : Config) (oracle : List Message → OracleResult)
    (search : Suggestion → Option FoundTrack) :
    GoodState cfg (runCollection cfg oracle search).1 ∧
    ∀ log ∈ (runCollection cfg oracle search).2, log.sizeAfter ≤ cfg.target :=
  loopAux_good cfg oracle search cfg.maxAttempts 0 initialRunState (initialRunState_good cfg)

/-- C1: every entry of the final CollectedSet has a catalog ID outside the
pre-fetched history-ID set, no two entries share a catalog ID, popularity is
unknown or at most the configured maximum, release year is unknown or at
least the configured minimum; and the collected size never exceeds the
target: after every attempt, after the loop, and across every single
acceptance step. -/
theorem collected_set_invariants (cfg : Config) (oracle : List Message → OracleResult)
    (search : Suggestion → Option FoundTrack) :
    ((runCollection cfg oracle search).1.details.length ≤ cfg.target ∧
      (runCollection cfg oracle search).1.uris.length ≤ cfg.target) ∧
    (∀ log ∈ (runCollection cfg oracle search).2, log.sizeAfter ≤ cfg.target) ∧
    (∀ st song, st.uris.length ≤ cfg.target →
      (acceptSong cfg st song).uris.length ≤ cfg.target) ∧
    (runCollection cfg oracle search).1.details.Pairwise (fun a b => a.id ≠ b.id) ∧
    (∀ s ∈ (runCollection cfg oracle search).1.details,
      cfg.historyIds.contains s.id = false ∧
      (∀ M, cfg.maxPopularity = some M →
        s.popularity = none ∨ ∃ p, s.popularity = some p ∧ p ≤ M) ∧
      (∀ Y, cfg.minReleaseYear = some Y →
        s.release_year = none ∨ ∃ y, s.release_year = some y ∧ Y ≤ y)) := by
  obtain ⟨⟨hlen, hle, hpw, hok⟩, hlogs⟩ := runCollection_good cfg oracle search
  refine ⟨⟨hle, by omega⟩, hlogs, ?_, hpw, ?_⟩
  · intro st song hst
    unfold acceptSong
    split
    · exact hst
    · rename_i hlt
      split
      · simp only [List.length_append, List.length_singleton]
        omega
      · exact hst
  · intro s hs
    obtain ⟨hliked, hhist, hpop, hold⟩ := hok s hs
    refine ⟨hhist, ?_, ?_⟩
    · intro M hM
      cases hp : s.popularity with
      | none => exact Or.inl rfl
      | some p =>
        refine Or.inr ⟨p, rfl, ?_⟩
        rw [hM, hp] at hpop
        simpa [is_too_popular] using hpop
    · intro Y hY
      cases hy : s.release_year with
      | none => exact Or.inl rfl
      | some y =>
        refine Or.inr ⟨y, rfl, ?_⟩
        rw [hY, hy] at hold
        simpa [is_too_old] using hold

/-- Witness for `collected_set_invariants`: in a run that accepts one
concrete candidate, the accepted entry is outside the history-ID set and its
popularity 10 is within the configured maximum 60. -/
theorem collected_set_invariants_witness :
    (["idh"].contains "id2" = false) ∧
    ((⟨"u2", "id2", "gold", "artist b", some 10, some 2023⟩ : SongInfo).popularity = none ∨
      ∃ p, (⟨"u2", "id2", "gold", "artist b", some 10, some 2023⟩ : SongInfo).popularity =
        some p ∧ p ≤ 60) := by
  have h := (collected_set_invariants ⟨2, 3, some 60, some 2021, [("blue", "artist a")], ["idh"]⟩
    (fun _ => OracleResult.parsedJson "raw"
      (Json.jarr [Json.jobj [("track", Json.jstr "gold"), ("artist", Json.jstr "artist b")]]))
    (fun _ => some ⟨"u2", "id2", "gold", ["artist b"], some 10, some "2023"⟩)).2.2.2.2
    ⟨"u2", "id2", "gold", "artist b", some 10, some 2023⟩ (by decide)
  exact ⟨h.1, h.2.1 60 rfl⟩

/-- Counterexample to C2 as stated: the acceptance check lower-cases but
does not trim, while the liked-songs set is built trimmed and lower-cased;
a catalog hit whose name carries a trailing space is accepted even though
its trimmed, lower-cased (title, artist) pair is in the liked-songs set. -/
theorem liked_normalization_counterexample :
    ¬ (∀ s ∈ (runCollection
        ⟨1, 1, some 60, some 2021, buildLikedSet [⟨"blue", "artist a"⟩], []⟩
        (fun _ => OracleResult.parsedJson "raw"
          (Json.jarr [Json.jobj [("track", Json.jstr "blue"), ("artist", Json.jstr "artist a")]]))
        (fun _ => some ⟨"uri1", "id1", "blue ", ["artist a"], some 10,
          some "2023-01-01"⟩)).1.details,
      (pyLower (pyStrip s.track), pyLower (pyStrip s.artist)) ∉
        buildLikedSet [⟨"blue", "artist a"⟩]) := by
  decide

/-- C2 as amended: every accepted entry's *lower-cased* (title, artist)
pair — with no trimming of surrounding whitespace — is outside the
liked-songs set built by trimming and lower-casing the user's saved
tracks. -/
theorem liked_filter_lowercase_only (saved : List Suggestion) (t A : Nat)
    (mp my : Option Int) (hist : List String) (oracle : List Message → OracleResult)
    (search : Suggestion → Option FoundTrack) :
    ∀ s ∈ (runCollection ⟨t, A, mp, my, buildLikedSet saved, hist⟩ oracle search).1.details,
      (buildLikedSet saved).contains (pyLower s.track, pyLower s.artist) = false := by
  intro s hs
  exact ((runCollection_good ⟨t, A, mp, my, buildLikedSet saved, hist⟩ oracle search).1.2.2.2
    s hs).1

/-- Witness for `liked_filter_lowercase_only`: the accepted candidate
`gold / artist b` has a lower-cased pair outside the liked set built from
`blue / artist a`. -/
theorem liked_filter_lowercase_only_witness :
    (buildLikedSet [⟨"blue", "artist a"⟩]).contains
      (pyLower "gold", pyLower "artist b") = false :=
  liked_filter_lowercase_only [⟨"blue", "artist a"⟩] 1 1 (some 60) (some 2021) []
    (fun _ => OracleResult.parsedJson "raw"
      (Json.jarr [Json.jobj [("track", Json.jstr "gold"), ("artist", Json.jstr "artist b")]]))
    (fun _ => some ⟨"u3", "id3", "gold", ["artist b"], some 10, some "2023"⟩)
    ⟨"u3", "id3", "gold", "artist b", some 10, some 2023⟩ (by decide)

/-! ## C3: the attempt budget -/

lemma exists_getD_cons_succ_iff {target x fuel len : Nat} {rest : List Nat}
    (hx : ¬ target ≤ x) :
    (∃ j, j ≤ len + 1 ∧ j < fuel + 1 ∧ target ≤ (x :: rest).getD j 0) ↔
    (∃ i, i ≤ len ∧ i < fuel ∧ target ≤ rest.getD i 0) := by
  constructor
  · rintro ⟨j, hj1, hj2, hj3⟩
    cases j with
    | zero =>
      rw [List.getD_cons_zero] at hj3
      exact absurd hj3 hx
    | succ i =>
      rw [List.getD_cons_succ] at hj3
      exact ⟨i, by omega, by omega, hj3⟩
  · rintro ⟨i, hi1, hi2, hi3⟩
    refine ⟨i + 1, by omega, by omega, ?_⟩
    rw [List.getD_cons_succ]
    exact hi3

lemma loopAux_calls (cfg : Config) (oracle : List Message → OracleResult)
    (search : Suggestion → Option FoundTrack) :
    ∀ fuel attempt st,
      (loopAux cfg oracle search attempt fuel st).2.length ≤ fuel ∧
      ((loopAux cfg oracle search attempt fuel st).2.length < fuel ↔
        ∃ i, i ≤ (loopAux cfg oracle search attempt fuel st).2.length ∧ i < fuel ∧
          cfg.target ≤ (st.uris.length ::
            (loopAux cfg oracle search attempt fuel st).2.map AttemptLog.sizeAfter).getD i 0) := by
  intro fuel
  induction fuel with
  | zero =>
    intro attempt st
    simp only [loopAux]
    refine ⟨le_refl 0, ?_⟩
    constructor
    · intro h; omega
    · rintro ⟨i, hi1, hi2, hi3⟩; omega
  | succ fuel ih =>
    intro attempt st
    rw [loopAux]
    split
    · rename_i hge
      refine ⟨by simp, ?_⟩
      simp only [List.length_nil, List.map_nil]
      constructor
      · intro _
        exact ⟨0, le_refl 0, by omega, by simpa using hge⟩
      · intro _
        omega
    · rename_i hlt
      dsimp only
      split
      · obtain ⟨ihlen, ihiff⟩ := ih (attempt + 1)
          (recordModelResponse (stepSendHistory attempt st)
            (callOracle oracle (stepSendHistory attempt st).conversation_history))
        refine ⟨by simpa using Nat.succ_le_succ ihlen, ?_⟩
        simp only [List.length_cons, List.map_cons, Nat.succ_lt_succ_iff]
        rw [exists_getD_cons_succ_iff hlt]
        simpa using ihiff
      · split
        · rename_i h4
          refine ⟨by simp, ?_⟩
          simp only [List.length_cons, List.length_nil, List.map_cons, List.map_nil,
            Nat.succ_lt_succ_iff]
          rw [exists_getD_cons_succ_iff hlt]
          constructor
          · intro h0
            exact ⟨0, le_refl 0, h0, by simpa using h4⟩
          · rintro ⟨i, hi1, hi2, hi3⟩
            omega
        · rename_i h4lt
          obtain ⟨ihlen, ihiff⟩ := ih (attempt + 1)
            (processBatch cfg search
              (oracleRecs (callOracle oracle (stepSendHistory attempt st).conversation_history))
              (recordModelResponse (stepSendHistory attempt st)
                (callOracle oracle (stepSendHistory attempt st).conversation_history)))
          refine ⟨by simpa using Nat.succ_le_succ ihlen, ?_⟩
          simp only [List.length_cons, List.map_cons, Nat.succ_lt_succ_iff]
          rw [exists_getD_cons_succ_iff hlt]
          simpa using ihiff

/-- C3: the loop makes at most `maxAttempts` oracle calls, and it makes
strictly fewer iff the collected size reached the target while calls were
still available: the list `0 :: sizes-after-each-call` records the collected
size after `i` calls, and stopping early is equivalent to the target being
reached at some index `i` with `i < maxAttempts`. -/
theorem attempt_budget (cfg : Config) (oracle : List Message → OracleResult)
    (search : Suggestion → Option FoundTrack) :
    (runCollection cfg oracle search).2.length ≤ cfg.maxAttempts ∧
    ((runCollection cfg oracle search).2.length < cfg.maxAttempts ↔
      ∃ i, i ≤ (runCollection cfg oracle search).2.length ∧ i < cfg.maxAttempts ∧
        cfg.target ≤ ((0 : Nat) ::
          (runCollection cfg oracle search).2.map AttemptLog.sizeAfter).getD i 0) :=
  loopAux_calls cfg oracle search cfg.maxAttempts 0 initialRunState

/-- Witness for `attempt_budget`: a target-1 run whose oracle answers on the
first call stops after 1 of 3 attempts, which certifies that the target was
reached with calls to spare. -/
theorem attempt_budget_witness :
    ∃ i, i ≤ (runCollection ⟨1, 3, some 60, some 2021, [], []⟩
        (fun _ => OracleResult.parsedJson "raw"
          (Json.jarr [Json.jobj [("track", Json.jstr "gold"), ("artist", Json.jstr "artist b")]]))
        (fun _ => some ⟨"u4", "id4", "gold", ["artist b"], some 10, some "2023"⟩)).2.length ∧
      i < 3 ∧
      1 ≤ ((0 : Nat) :: (runCollection ⟨1, 3, some 60, some 2021, [], []⟩
        (fun _ => OracleResult.parsedJson "raw"
          (Json.jarr [Json.jobj [("track", Json.jstr "gold"), ("artist", Json.jstr "artist b")]]))
        (fun _ => some ⟨"u4", "id4", "gold", ["artist b"], some 10,
          some "2023"⟩)).2.map AttemptLog.sizeAfter).getD i 0 :=
  (attempt_budget ⟨1, 3, some 60, some 2021, [], []⟩
    (fun _ => OracleResult.parsedJson "raw"
      (Json.jarr [Json.jobj [("track", Json.jstr "gold"), ("artist", Json.jstr "artist b")]]))
    (fun _ => some ⟨"u4", "id4", "gold", ["artist b"], some 10, some "2023"⟩)).2.mp (by decide)

/-! ## C5: failed attempts count and the loop continues -/

/-- The scenario configuration: target N = 1, budget A = 5. -/
def cfgC5 : Config := ⟨1, 5, some 60, some 2021, [], []⟩

/-- The scenario oracle: unparsable text on the first call (when the history
holds only the initial user prompt), a fresh valid candidate afterwards. -/
def oracleC5 : List Message → OracleResult := fun h =>
  if h.length == 1 then OracleResult.unparsable "not json"
  else OracleResult.parsedJson "fresh json"
    (Json.jarr [Json.jobj [("track", Json.jstr "fresh"), ("artist", Json.jstr "artist c")]])

/-- The scenario catalog: the fresh candidate resolves cleanly. -/
def searchC5 : Suggestion → Option FoundTrack := fun _ =>
  some ⟨"u5", "id5", "fresh", ["artist c"], some 10, some "2023"⟩

/-- C5: an attempt whose oracle call yields no valid suggestion (API error,
unparsable output or zero suggestions) still consumes one unit of the
attempt budget, records one oracle call, and the loop continues with the
remaining budget rather than aborting; in the concrete scenario (A = 5,
N = 1, unparsable on attempt 1, one fresh accepted candidate on attempt 2)
the loop makes exactly 2 oracle calls and collects exactly 1 entry. -/
theorem failed_attempt_continues :
    (∀ (cfg : Config) (oracle : List Message → OracleResult)
      (search : Suggestion → Option FoundTrack) (attempt fuel : Nat) (st : RunState),
      st.uris.length < cfg.target →
      (oracleRecs (callOracle oracle
        (stepSendHistory attempt st).conversation_history)).isEmpty = true →
      loopAux cfg oracle search attempt (fuel + 1) st =
        ((loopAux cfg oracle search (attempt + 1) fuel
            (recordModelResponse (stepSendHistory attempt st)
              (callOracle oracle (stepSendHistory attempt st).conversation_history))).1,
          ⟨(stepSendHistory attempt st).conversation_history,
            (recordModelResponse (stepSendHistory attempt st)
              (callOracle oracle
                (stepSendHistory attempt st).conversation_history)).uris.length⟩ ::
          (loopAux cfg oracle search (attempt + 1) fuel
            (recordModelResponse (stepSendHistory attempt st)
              (callOracle oracle
                (stepSendHistory attempt st).conversation_history))).2)) ∧
    ((runCollection cfgC5 oracleC5 searchC5).2.length = 2 ∧
      (runCollection cfgC5 oracleC5 searchC5).1.details.length = 1) := by
  constructor
  · intro cfg oracle search attempt fuel st hlt hempty
    rw [loopAux]
    rw [if_neg (by omega)]
    dsimp only
    rw [if_pos hempty]
  · constructor
    · decide
    · decide

/-- Witness for `failed_attempt_continues`: the failed-attempt equation
instantiated on the scenario's first call. -/
theorem failed_attempt_continues_witness :
    loopAux cfgC5 oracleC5 searchC5 0 1 initialRunState =
      ((loopAux cfgC5 oracleC5 searchC5 1 0
          (recordModelResponse (stepSendHistory 0 initialRunState)
            (callOracle oracleC5 (stepSendHistory 0 initialRunState).conversation_history))).1,
        ⟨(stepSendHistory 0 initialRunState).conversation_history,
          (recordModelResponse (stepSendHistory 0 initialRunState)
            (callOracle oracleC5
              (stepSendHistory 0 initialRunState).conversation_history)).uris.length⟩ ::
        (loopAux cfgC5 oracleC5 searchC5 1 0
          (recordModelResponse (stepSendHistory 0 initialRunState)
            (callOracle oracleC5
              (stepSendHistory 0 initialRunState).conversation_history))).2) :=
  failed_attempt_continues.1 cfgC5 oracleC5 searchC5 0 0 initialRunState
    (by decide) (by decide)

/-! ## C7: conversation-history discipline -/

/-- Strict user/model alternation of a role-tagged message list. -/
def rolesAlternate : List Message → Bool
  | [] => true
  | [_] => true
  | a :: b :: rest => (a.role != b.role) && rolesAlternate (b :: rest)

/-- The last message of the list carries the given role. -/
def lastRoleIs (r : String) (l : List Message) : Bool :=
  match l.getLast? with
  | some m => m.role == r
  | none => false

/-- The list ends with a user-role message (the guard re-checked by
`get_gemini_recommendations_google_ai` before every send). -/
def endsWithUserRole (l : List Message) : Bool := lastRoleIs "user" l

/-- The chain of histories passed to the oracle across one run: each link
optionally appends one follow-up user message to the accumulated history,
the oracle's raw reply is nonempty and is appended as one model message, and
the final history is exactly the accumulated result. -/
def sendChainFrom (oracle : List Message → OracleResult) :
    Bool → List Message → List (List Message) → List Message → Prop
  | _, base, [], fin => fin = base
  | withUser, base, s :: rest, fin =>
    (if withUser then ∃ u, s = base ++ [⟨"user", u⟩] else s = base) ∧
    ∃ raw, oracleRaw (callOracle oracle s) = some raw ∧ raw ≠ "" ∧
      sendChainFrom oracle true (s ++ [⟨"model", raw⟩]) rest fin

lemma lastRoleIs_append_singleton (r : String) (l : List Message) (m : Message) :
    lastRoleIs r (l ++ [m]) = (m.role == r) := by
  unfold lastRoleIs
  rw [List.getLast?_concat]

lemma rolesAlternate_append_singleton (l : List Message) (m : Message) :
    rolesAlternate (l ++ [m]) =
      (rolesAlternate l && (match l.getLast? with
        | none => true
        | some x => x.role != m.role)) := by
  induction l with
  | nil => simp [rolesAlternate]
  | cons a t ih =>
    cases t with
    | nil => simp [rolesAlternate]
    | cons b t2 =>
      simp only [List.cons_append, List.append_eq, rolesAlternate] at ih ⊢
      rw [ih, List.getLast?_cons_cons, Bool.and_assoc]

lemma callOracle_endsUser {oracle : List Message → OracleResult} {l : List Message}
    (h : endsWithUserRole l = true) : callOracle oracle l = oracle l := by
  unfold endsWithUserRole lastRoleIs at h
  unfold callOracle
  cases hl : l.getLast? with
  | none =>
    rw [hl] at h
    have h' : false = true := h
    cases h'
  | some m =>
    rw [hl] at h
    have h' : (m.role == "user") = true := h
    show (if m.role = "user" then oracle l else OracleResult.apiError) = oracle l
    rw [if_pos (by simpa using h')]

lemma recordModelResponse_history_of_raw {st : RunState} {res : OracleResult} {raw : String}
    (h : oracleRaw res = some raw) (hne : raw ≠ "") :
    (recordModelResponse st res).conversation_history =
      st.conversation_history ++ [⟨"model", raw⟩] := by
  unfold recordModelResponse
  rw [h]
  simp [hne]

@[simp] lemma stepSendHistory_zero (st : RunState) : stepSendHistory 0 st = st := by
  simp [stepSendHistory]

lemma stepSendHistory_history_pos (attempt : Nat) (st : RunState) (h : attempt ≠ 0) :
    (stepSendHistory attempt st).conversation_history =
      st.conversation_history ++
        [⟨"user", follow_up_user_prompt_content st.suggestions⟩] := by
  simp [stepSendHistory, h]

lemma rolesAlternate_append_of_lastRole {l : List Message} {m : Message} {r : String}
    (h1 : rolesAlternate l = true) (h2 : lastRoleIs r l = true)
    (h3 : (r != m.role) = true) : rolesAlternate (l ++ [m]) = true := by
  rw [rolesAlternate_append_singleton, h1, Bool.true_and]
  unfold lastRoleIs at h2
  cases hl : l.getLast? with
  | none => rfl
  | some x =>
    rw [hl] at h2
    have h2' : (x.role == r) = true := h2
    show (x.role != m.role) = true
    have : x.role = r := by simpa using h2'
    rw [this]
    exact h3

lemma loopAux_sent_endsUser (cfg : Config) (oracle : List Message → OracleResult)
    (search : Suggestion → Option FoundTrack) :
    ∀ fuel attempt st,
      (attempt = 0 → endsWithUserRole st.conversation_history = true) →
      ∀ log ∈ (loopAux cfg oracle search attempt fuel st).2,
        endsWithUserRole log.sent = true := by
  intro fuel
  induction fuel with
  | zero => intro attempt st h log hlog; simp [loopAux] at hlog
  | succ fuel ih =>
    intro attempt st h log hlog
    rw [loopAux] at hlog
    split at hlog
    · simp at hlog
    · dsimp only at hlog
      have hsent : endsWithUserRole (stepSendHistory attempt st).conversation_history = true := by
        by_cases ha : attempt = 0
        · subst ha; simpa using h rfl
        · rw [stepSendHistory_history_pos attempt st ha]
          unfold endsWithUserRole
          rw [lastRoleIs_append_singleton]
          simp
      split at hlog
      · rcases List.mem_cons.mp hlog with rfl | hlog
        · exact hsent
        · exact ih (attempt + 1) _ (fun h0 => absurd h0 (Nat.succ_ne_zero attempt)) log hlog
      · split at hlog
        · rw [List.mem_singleton] at hlog
          subst hlog
          exact hsent
        · rcases List.mem_cons.mp hlog with rfl | hlog
          · exact hsent
          · exact ih (attempt + 1) _ (fun h0 => absurd h0 (Nat.succ_ne_zero attempt)) log hlog

lemma loopAux_sent_alternates (cfg : Config) (oracle : List Message → OracleResult)
    (search : Suggestion → Option FoundTrack)
    (hGood : ∀ hist, ∃ raw, oracleRaw (oracle hist) = some raw ∧ raw ≠ "") :
    ∀ fuel attempt st,
      rolesAlternate st.conversation_history = true →
      (attempt = 0 → endsWithUserRole st.conversation_history = true) →
      (attempt ≠ 0 → lastRoleIs "model" st.conversation_history = true) →
      ∀ log ∈ (loopAux cfg oracle search attempt fuel st).2,
        rolesAlternate log.sent = true := by
  intro fuel
  induction fuel with
  | zero => intro attempt st h1 h2 h3 log hlog; simp [loopAux] at hlog
  | succ fuel ih =>
    intro attempt st h1 h2 h3 log hlog
    rw [loopAux] at hlog
    split at hlog
    · simp at hlog
    · dsimp only at hlog
      have hsentAlt : rolesAlternate (stepSendHistory attempt st).conversation_history = true := by
        by_cases ha : attempt = 0
        · subst ha; simpa using h1
        · rw [stepSendHistory_history_pos attempt st ha]
          exact rolesAlternate_append_of_lastRole h1 (h3 ha) (by simp)
      have hsentUser : endsWithUserRole (stepSendHistory attempt st).conversation_history = true := by
        by_cases ha : attempt = 0
        · subst ha; simpa using h2 rfl
        · rw [stepSendHistory_history_pos attempt st ha]
          unfold endsWithUserRole
          rw [lastRoleIs_append_singleton]
          simp
      obtain ⟨raw, hraw, hne⟩ := hGood (stepSendHistory attempt st).conversation_history
      have hraw' : oracleRaw (callOracle oracle
          (stepSendHistory attempt st).conversation_history) = some raw := by
        rw [callOracle_endsUser hsentUser]
        exact hraw
      have hst2 : (recordModelResponse (stepSendHistory attempt st)
          (callOracle oracle (stepSendHistory attempt st).conversation_history)).conversation_history =
          (stepSendHistory attempt st).conversation_history ++ [⟨"model", raw⟩] :=
        recordModelResponse_history_of_raw hraw' hne
      have hst2Alt : rolesAlternate (recordModelResponse (stepSendHistory attempt st)
          (callOracle oracle
            (stepSendHistory attempt st).conversation_history)).conversation_history = true := by
        rw [hst2]
        exact rolesAlternate_append_of_lastRole hsentAlt hsentUser (by simp)
      have hst2Model : lastRoleIs "model" (recordModelResponse (stepSendHistory attempt st)
          (callOracle oracle
            (stepSendHistory attempt st).conversation_history)).conversation_history = true := by
        rw [hst2, lastRoleIs_append_singleton]
        simp
      split at hlog
      · rcases List.mem_cons.mp hlog with rfl | hlog
        · exact hsentAlt
        · exact ih (attempt + 1) _ hst2Alt
            (fun h0 => absurd h0 (Nat.succ_ne_zero attempt))
            (fun _ => hst2Model) log hlog
      · split at hlog
        · rw [List.mem_singleton] at hlog
          subst hlog
          exact hsentAlt
        · rcases List.mem_cons.mp hlog with rfl | hlog
          · exact hsentAlt
          · refine ih (attempt + 1) _ ?_ (fun h0 => absurd h0 (Nat.succ_ne_zero attempt))
              (fun _ => ?_) log hlog
            · rw [processBatch_history]
              exact hst2Alt
            · rw [processBatch_history]
              exact hst2Model

lemma loopAux_sendChain (cfg : Config) (oracle : List Message → OracleResult)
    (search : Suggestion → Option FoundTrack)
    (hGood : ∀ hist, ∃ raw, oracleRaw (oracle hist) = some raw ∧ raw ≠ "") :
    ∀ fuel attempt st,
      (attempt = 0 → endsWithUserRole st.conversation_history = true) →
      sendChainFrom oracle (decide (attempt ≠ 0)) st.conversation_history
        ((loopAux cfg oracle search attempt fuel st).2.map AttemptLog.sent)
        (loopAux cfg oracle search attempt fuel st).1.conversation_history := by
  intro fuel
  induction fuel with
  | zero =>
    intro attempt st h
    simp only [loopAux, List.map_nil]
    exact rfl
  | succ fuel ih =>
    intro attempt st h
    rw [loopAux]
    split
    · exact rfl
    · dsimp only
      have hsentUser : endsWithUserRole (stepSendHistory attempt st).conversation_history = true := by
        by_cases ha : attempt = 0
        · subst ha; simpa using h rfl
        · rw [stepSendHistory_history_pos attempt st ha]
          unfold endsWithUserRole
          rw [lastRoleIs_append_singleton]
          simp
      obtain ⟨raw, hraw, hne⟩ := hGood (stepSendHistory attempt st).conversation_history
      have hraw' : oracleRaw (callOracle oracle
          (stepSendHistory attempt st).conversation_history) = some raw := by
        rw [callOracle_endsUser hsentUser]
        exact hraw
      have hst2 : (recordModelResponse (stepSendHistory attempt st)
          (callOracle oracle
            (stepSendHistory attempt st).conversation_history)).conversation_history =
          (stepSendHistory attempt st).conversation_history ++ [⟨"model", raw⟩] :=
        recordModelResponse_history_of_raw hraw' hne
      have hfirst : if decide (attempt ≠ 0) then
          ∃ u, (stepSendHistory attempt st).conversation_history =
            st.conversation_history ++ [⟨"user", u⟩]
          else (stepSendHistory attempt st).conversation_history =
            st.conversation_history := by
        by_cases ha : attempt = 0
        · subst ha
          simp
        · rw [if_pos (by simpa using ha)]
          exact ⟨follow_up_user_prompt_content st.suggestions,
            stepSendHistory_history_pos attempt st ha⟩
      have hdec : decide (attempt + 1 ≠ 0) = true := by simp
      split
      · simp only [List.map_cons]
        refine ⟨hfirst, raw, hraw', hne, ?_⟩
        have hih := ih (attempt + 1)
          (recordModelResponse (stepSendHistory attempt st)
            (callOracle oracle (stepSendHistory attempt st).conversation_history))
          (fun h0 => absurd h0 (Nat.succ_ne_zero attempt))
        rw [hdec, hst2] at hih
        exact hih
      · split
        · simp only [List.map_cons, List.map_nil]
          refine ⟨hfirst, raw, hraw', hne, ?_⟩
          show (processBatch cfg search _ _).conversation_history = _
          rw [processBatch_history]
          exact hst2
        · simp only [List.map_cons]
          refine ⟨hfirst, raw, hraw', hne, ?_⟩
          have hih := ih (attempt + 1)
            (processBatch cfg search
            (oracleRecs (callOracle oracle (stepSendHistory attempt st).conversation_history))
            (recordModelResponse (stepSendHistory attempt st)
              (callOracle oracle (stepSendHistory attempt st).conversation_history)))
            (fun h0 => absurd h0 (Nat.succ_ne_zero attempt))
          rw [hdec] at hih
          rw [processBatch_history, hst2] at hih
          exact hih

/-- Counterexample to C7 as stated: with an oracle whose first call fails
(no textual output), no model message is appended, so the history passed to
the *second* send holds two consecutive user-role messages and does not
strictly alternate. -/
theorem conversation_alternation_counterexample :
    2 ≤ (runCollection ⟨5, 2, some 60, some 2021, [], []⟩
      (fun _ => OracleResult.apiError) (fun _ => none)).2.length ∧
    rolesAlternate (((runCollection ⟨5, 2, some 60, some 2021, [], []⟩
      (fun _ => OracleResult.apiError) (fun _ => none)).2.getD 1 ⟨[], 0⟩).sent) = false := by
  constructor
  · decide
  · decide

/-- C7 as amended: the conversation history always ends with a user-role
message before every oracle send; and provided every oracle call of the run
returns nonempty textual output, every sent history also alternates
strictly between user and model roles, and the run's sends form an
append-only chain in which each send extends the previous history by one
follow-up user message and each raw reply is appended as one model-role
message, the final history being exactly the accumulated sequence. -/
theorem conversation_history_discipline (cfg : Config)
    (oracle : List Message → OracleResult) (search : Suggestion → Option FoundTrack) :
    (∀ log ∈ (runCollection cfg oracle search).2, endsWithUserRole log.sent = true) ∧
    ((∀ hist, ∃ raw, oracleRaw (oracle hist) = some raw ∧ raw ≠ "") →
      (∀ log ∈ (runCollection cfg oracle search).2, rolesAlternate log.sent = true) ∧
      sendChainFrom oracle false initialRunState.conversation_history
        ((runCollection cfg oracle search).2.map AttemptLog.sent)
        (runCollection cfg oracle search).1.conversation_history) := by
  refine ⟨?_, fun hGood => ⟨?_, ?_⟩⟩
  · exact loopAux_sent_endsUser cfg oracle search cfg.maxAttempts 0 initialRunState
      (fun _ => by decide)
  · exact loopAux_sent_alternates cfg oracle search hGood cfg.maxAttempts 0 initialRunState
      (by decide) (fun _ => by decide) (fun h0 => absurd rfl h0)
  · have hchain := loopAux_sendChain cfg oracle search hGood cfg.maxAttempts 0 initialRunState
      (fun _ => by decide)
    simpa using hchain

/-- Witness for `conversation_history_discipline`: in a two-attempt run with
nonempty (unparsable) replies, the first sent history ends with a user
message and the second sent history alternates. -/
theorem conversation_history_discipline_witness :
    endsWithUserRole (((runCollection ⟨1, 2, some 60, some 2021, [], []⟩
        (fun _ => OracleResult.unparsable "x") (fun _ => none)).2.getD 0
        ⟨[], 0⟩).sent) = true ∧
    rolesAlternate (((runCollection ⟨1, 2, some 60, some 2021, [], []⟩
        (fun _ => OracleResult.unparsable "x") (fun _ => none)).2.getD 1
        ⟨[], 0⟩).sent) = true := by
  have h := conversation_history_discipline ⟨1, 2, some 60, some 2021, [], []⟩
    (fun _ => OracleResult.unparsable "x") (fun _ => none)
  refine ⟨h.1 _ ?_, (h.2 (fun hist => ⟨"x", rfl, by decide⟩)).1 _ ?_⟩
  · decide
  · decide
